import Mathlib

/-
Verification development for the browser photo-gallery client.
The definitions below are a shallow embedding of the JavaScript source:
the session/auth module (auth.js), the gallery fetch and upload logic
(js/app.js), the modal controller and the post-upload monitoring loop.
Timestamps are modelled as `Int` milliseconds since the epoch; JavaScript
`undefined`/`null` is modelled with `Option`; JS truthiness of optional
strings and numbers is made explicit.
-/

namespace PhotoApp

/-- JS truthiness of an optional string: `undefined`/`null` and the empty
string are falsy, every other string is truthy. -/
def truthyS (o : Option String) : Bool :=
  match o with
  | some s => s != ""
  | none => false

/-- JS `a || b` on optional strings: yields `a` when `a` is truthy,
otherwise `b` (even when `b` is itself falsy). -/
def jsOrS (a b : Option String) : Option String :=
  if truthyS a then a else b

/-- JS truthiness of an optional number: `undefined`/`null` and `0` are
falsy. -/
def truthyN (o : Option Int) : Bool :=
  match o with
  | some n => n != 0
  | none => false

/-- The global `window.authStatus` object of auth.js, and also the shape of
the JSON session object persisted under the `photoGalleryAuth` key.
`tokenExpiry` is the parsed time in ms (`none` models `null` or an
unparseable date). -/
structure AuthState where
  isAuthenticated : Bool
  username : String
  token : String
  tokenExpiry : Option Int
  loading : Bool
deriving DecidableEq, Repr

/-- The initial (and cleared) value of `window.authStatus`. -/
def emptyAuth : AuthState :=
  { isAuthenticated := false, username := "", token := "", tokenExpiry := none, loading := false }

/-- Content of the `photoGalleryAuth` localStorage key: either JSON that
parses to a session object, or a string `JSON.parse` rejects. -/
inductive StoredVal where
  | malformed
  | session (a : AuthState)
deriving DecidableEq

/-- The full mutable state the auth module touches: the global auth status
and the persisted localStorage slot (`none` when the key is absent). -/
structure SysState where
  auth : AuthState
  storage : Option StoredVal
deriving DecidableEq

/-- The `tokenData` argument of `setAuthenticatedUser`: each field may be
absent, matching the optional properties read by the JS code. -/
structure TokenData where
  username : Option String
  token : Option String
  id_token : Option String
  access_token : Option String
  expires_in : Option Int
deriving DecidableEq

/-- Result of `JSON.parse(atob(middleSegment))` restricted to the three
fields the code reads (`name`, `email`, `username`); `none` models a thrown
decode error. The decoder itself is external input (the token payload),
so the embedding is parameterised by it. -/
abbrev JwtDecoder := String → Option (Option String × Option String × Option String)

/-- The username extraction of `setAuthenticatedUser`: prefer a truthy
`tokenData.username`, else split the id_token on dots, decode the middle
segment and take `name || email || username || "User"`, falling back to
`"User"` on any failure. -/
def extractUsername (decode : JwtDecoder) (td : TokenData) : String :=
  if truthyS td.username then td.username.getD "User"
  else
    match td.id_token with
    | some idt =>
      if (idt.splitOn ".").length == 3 then
        match decode ((idt.splitOn ".").getD 1 "") with
        | some (n, e, u) => (jsOrS n (jsOrS e (jsOrS u (some "User")))).getD "User"
        | none => "User"
      else "User"
    | none => "User"

/-- The `expiresIn` computation: a truthy `expires_in` is used as is,
otherwise the default 3600 seconds. -/
def expiresInOf (td : TokenData) : Int :=
  if truthyN td.expires_in then td.expires_in.getD 3600 else 3600

/-- The new `window.authStatus` built by `setAuthenticatedUser` at time
`now`: authenticated, with the extracted username, the first truthy of
`id_token || access_token || token` as token (an all-absent chain is
collapsed to the empty string), and expiry `now + expiresIn` seconds. -/
def authOfTokenData (decode : JwtDecoder) (now : Int) (td : TokenData) : AuthState :=
  { isAuthenticated := true
  , username := extractUsername decode td
  , token := (jsOrS td.id_token (jsOrS td.access_token td.token)).getD ""
  , tokenExpiry := some (now + expiresInOf td * 1000)
  , loading := false }

/-- The `setAuthenticatedUser` function of auth.js: overwrites the global
auth status, persists it to localStorage, and dispatches one
`auth:statusChanged` event (the returned list is the emission trace, each
entry the snapshot observers read at that dispatch). -/
def setAuthenticatedUser (decode : JwtDecoder) (now : Int) (td : TokenData) :
    SysState × List AuthState :=
  let na := authOfTokenData decode now td
  (⟨na, some (StoredVal.session na)⟩, [na])

/-- The `clearAuthData` function: resets the auth status to empty, removes
the persisted key, and dispatches one event. -/
def clearAuthData : SysState × List AuthState :=
  (⟨emptyAuth, none⟩, [emptyAuth])

/-- The `authData` object fabricated from the URL authorization code in the
code-exchange branch of `checkAuthFromHash`. -/
def tokenDataOfCode (code : String) : TokenData :=
  { username := some "Authenticated User"
  , token := some ("cognito-token-" ++ code.take 8)
  , id_token := some ("id-" ++ code)
  , access_token := some ("access-" ++ code)
  , expires_in := some 3600 }

/-- The `authData` obtained by `JSON.parse` of a persisted session object:
its JSON carries `username`, `token` and `tokenExpiry` keys but no
`id_token`, `access_token` or `expires_in`. -/
def tokenDataOfStored (a : AuthState) : TokenData :=
  { username := some a.username
  , token := some a.token
  , id_token := none
  , access_token := none
  , expires_in := none }

/-- The guard `authData.tokenExpiry && new Date(authData.tokenExpiry) > new Date()`:
true exactly when the stored expiry is present, parseable, and strictly in
the future. -/
def storedExpiryValid (now : Int) (a : AuthState) : Bool :=
  match a.tokenExpiry with
  | some e => decide (now < e)
  | none => false

/-- The body of `checkAuthFromHash` after `loading` has been set: branch on
a truthy URL code (exchange) versus the persisted session (restore /
clear), then set `loading` to false and dispatch the final event. -/
def checkAuthBody (decode : JwtDecoder) (now : Int) (urlCode : Option String)
    (s : SysState) : SysState × List AuthState :=
  let stepRes :=
    if truthyS urlCode then
      setAuthenticatedUser decode now (tokenDataOfCode (urlCode.getD ""))
    else
      match s.storage with
      | none => (s, [])
      | some StoredVal.malformed => clearAuthData
      | some (StoredVal.session a) =>
        if storedExpiryValid now a then
          setAuthenticatedUser decode now (tokenDataOfStored a)
        else
          clearAuthData
  let fin : AuthState := { stepRes.1.auth with loading := false }
  (⟨fin, stepRes.1.storage⟩, stepRes.2 ++ [fin])

/-- The `window.checkAuthFromHash` startup check: sets `loading := true`
(without dispatching), runs the exchange-or-restore body, sets
`loading := false` and dispatches. The second component is the full
emission trace of the run. -/
def checkAuthFromHash (decode : JwtDecoder) (now : Int) (urlCode : Option String)
    (s : SysState) : SysState × List AuthState :=
  checkAuthBody decode now urlCode ⟨{ s.auth with loading := true }, s.storage⟩

/-- The `window.logoutUser` function: an alias for `clearAuthData`. -/
def logoutUser (_s : SysState) : SysState × List AuthState :=
  clearAuthData

/-- One tick of the 60-second expiry watchdog interval: when a truthy
`tokenExpiry` is present and not after the current time, clear the auth
data; otherwise do nothing. -/
def expiryTick (now : Int) (s : SysState) : SysState × List AuthState :=
  match s.auth.tokenExpiry with
  | some e => if e ≤ now then clearAuthData else (s, [])
  | none => (s, [])

/-- One public auth operation performed at time `t`: a startup check (with
an arbitrary URL code value and an arbitrary token-payload decoder), an
explicit logout, or an expiry-watchdog tick. -/
inductive Step : Int → SysState → SysState → Prop where
  | check (decode : JwtDecoder) (t : Int) (urlCode : Option String) (s : SysState) :
      Step t s (checkAuthFromHash decode t urlCode s).1
  | logout (t : Int) (s : SysState) :
      Step t s (logoutUser s).1
  | tick (t : Int) (s : SysState) :
      Step t s (expiryTick t s).1

/-- Auth states reachable from the initial empty session with no persisted
copy, by any sequence of public operations. -/
inductive Reachable : SysState → Prop where
  | init : Reachable ⟨emptyAuth, none⟩
  | step (t : Int) (s sNext : SysState) :
      Reachable s → Step t s sNext → Reachable sNext

/-- A string-wrapped DynamoDB attribute `{S: ...}` as read by app.js; the
`S` key itself may be absent. -/
structure StrAttr where
  S : Option String
deriving DecidableEq

/-- A number-wrapped attribute `{N: ...}` (the number is serialised as a
string). -/
structure NumAttr where
  N : Option String
deriving DecidableEq

/-- The `Size` attribute: a list-wrapped pair `{L: [{N..},{N..}]}`; the `L`
key may be absent. -/
structure SizeAttr where
  L : Option (List NumAttr)
deriving DecidableEq

/-- The inner metadata map `Metadata.M`: each optional sub-field may be
absent. -/
structure MetaFields where
  Format : Option StrAttr
  Mode : Option StrAttr
  Size : Option SizeAttr
deriving DecidableEq

/-- The `Metadata` wrapper `{M: {...}}`. -/
structure MetaWrap where
  M : Option MetaFields
deriving DecidableEq

/-- One element of the listing response's `Items` array. -/
structure ListItem where
  ThumbnailURL : Option StrAttr
  OriginalImageURL : Option StrAttr
  ImageMetadataPK : Option StrAttr
  Metadata : Option MetaWrap
deriving DecidableEq

/-- The parsed JSON body of a listing response; `Items := none` models an
absent or non-array `Items` key. -/
structure ListingData where
  Items : Option (List ListItem)
deriving DecidableEq

/-- The metadata object assembled per photo; a `none` field was never
assigned. JS `parseInt` producing `NaN` is also collapsed to `none`. -/
structure PhotoMeta where
  format : Option String
  mode : Option String
  width : Option Int
  height : Option Int
deriving DecidableEq

/-- The client photo model constructed in `fetchPhotos`. A `none` URL or id
models the JS `undefined` obtained when the wrapper object exists but its
`S` key is absent. -/
structure Photo where
  id : Option String
  thumbnailUrl : Option String
  url : Option String
  metadata : PhotoMeta
deriving DecidableEq

/-- JS `parseInt(x, 10)` on a possibly-absent numeric string, with `NaN`
(absent input or no leading integer) modelled as `none`. -/
def jsParseInt (o : Option String) : Option Int :=
  o.bind (fun s => s.toInt?)

/-- The per-item mapping of `fetchPhotos`: unwrap the typed attributes,
defaulting a missing wrapper object to the empty string, and populate only
the metadata fields whose guards pass. -/
def parsePhotoItem (item : ListItem) : Photo :=
  let thumbnailURL := match item.ThumbnailURL with
    | some a => a.S
    | none => some ""
  let originalURL := match item.OriginalImageURL with
    | some a => a.S
    | none => some ""
  let photoId := match item.ImageMetadataPK with
    | some a => a.S
    | none => some ""
  let metadata :=
    match item.Metadata.bind (fun w => w.M) with
    | none => ({ format := none, mode := none, width := none, height := none } : PhotoMeta)
    | some mf =>
      let fmt := match mf.Format with
        | some a => if truthyS a.S then a.S else none
        | none => none
      let mode := match mf.Mode with
        | some a => if truthyS a.S then a.S else none
        | none => none
      let sizePair :=
        match mf.Size with
        | some sz =>
          match sz.L with
          | some l =>
            match l.get? 0, l.get? 1 with
            | some e0, some e1 => (jsParseInt e0.N, jsParseInt e1.N)
            | _, _ => ((none : Option Int), (none : Option Int))
          | none => (none, none)
        | none => (none, none)
      { format := fmt, mode := mode, width := sizePair.1, height := sizePair.2 }
  { id := photoId, thumbnailUrl := thumbnailURL, url := originalURL, metadata := metadata }

/-- The observable outcome of one `fetch` of the listing endpoint: a thrown
transport or JSON-parse error, a non-ok HTTP response, or an ok response
with a parsed body (`none` body models JSON `null`). -/
inductive FetchOutcome where
  | netError (msg : String)
  | httpError
  | ok (data : Option ListingData)

/-- The reactive fields `fetchPhotos` touches on the Alpine component. -/
structure GalleryState where
  photos : List Photo
  loading : Bool
  error : Option String
deriving DecidableEq

/-- The `fetchPhotos` method: set `loading`, clear `error`, then either
catch a thrown error (leaving `photos` untouched), reject an unexpected
shape (emptying `photos`), or replace `photos` wholesale; `loading` is
reset in the `finally` block. -/
def fetchPhotos (st : GalleryState) (out : FetchOutcome) : GalleryState :=
  match out with
  | FetchOutcome.netError msg =>
    { st with loading := false, error := some ("Failed to fetch photos: " ++ msg) }
  | FetchOutcome.httpError =>
    { st with
      loading := false
      error := some "Failed to fetch photos: Network response was not ok" }
  | FetchOutcome.ok data =>
    match data with
    | some d =>
      match d.Items with
      | some items =>
        { photos := items.map parsePhotoItem, loading := false, error := none }
      | none =>
        { photos := [], loading := false, error := some "Unexpected API response format" }
    | none =>
      { photos := [], loading := false, error := some "Unexpected API response format" }

/-- A selected browser `File`: only the fields the upload code reads. -/
structure FileObj where
  name : String
  mime : String
deriving DecidableEq

/-- The reactive upload and processing fields of the Alpine component. -/
structure UploadState where
  fileToUpload : Option FileObj
  uploading : Bool
  uploadProgress : Nat
  uploadError : Option String
  uploadSuccess : Bool
  processingImage : Bool
  processingProgress : Nat
  processingMessage : String
deriving DecidableEq

/-- The `handleFileSelect` method: record the candidate file (possibly
`undefined`) and clear the prior error and success flags. -/
def handleFileSelect (st : UploadState) (f : Option FileObj) : UploadState :=
  { st with fileToUpload := f, uploadError := none, uploadSuccess := false }

/-- The observable outcome of the `uploadToS3` PUT transfer: a final HTTP
status (success iff 2xx) or a transport error. -/
inductive UploadOutcome where
  | status (code : Nat) (statusText : String)
  | netError

/-- The processing message set when monitoring starts. -/
def processingStartMessage : String :=
  "Processing image... This typically takes about 60 seconds"

/-- The processing message set when monitoring completes. -/
def processingCompleteMessage : String :=
  "Image processing complete!"

/-- The `uploadFile` method. With no selected file it sets the validation
error and returns at once; otherwise it resets the progress fields,
performs the transfer, and on success clears the file and starts the
monitor (whose initial field values are set here), while on failure it
records the error; `uploading` is reset in the `finally` block. The
boolean reports whether any network transfer was attempted. -/
def uploadFile (st : UploadState) (out : UploadOutcome) : UploadState × Bool :=
  match st.fileToUpload with
  | none => ({ st with uploadError := some "Please select a file to upload." }, false)
  | some _f =>
    let st1 := { st with
                 uploading := true
                 uploadProgress := 0
                 uploadError := none
                 uploadSuccess := false }
    match out with
    | UploadOutcome.status code txt =>
      if 200 ≤ code ∧ code < 300 then
        ({ st1 with
           uploadSuccess := true
           fileToUpload := none
           processingImage := true
           processingProgress := 0
           processingMessage := processingStartMessage
           uploading := false }, true)
      else
        ({ st1 with
           uploadError := some ("Upload failed: Upload failed with status: "
             ++ toString code ++ " - " ++ txt)
           uploading := false }, true)
    | UploadOutcome.netError =>
      ({ st1 with
         uploadError := some "Upload failed: A network error occurred during the upload."
         uploading := false }, true)

/-- JS `Math.round (num / den)` for nonnegative arguments: round half up. -/
def jsRound (num den : Nat) : Nat :=
  (2 * num + den) / (2 * den)

/-- One tick of the monitoring interval, `k` ticks (of 10 s) after the
start, observing `obs` photos: advance the synthetic progress (capped at
95), then terminate with full progress and the completion message when the
count exceeds `n` or the elapsed time reaches the budget. -/
def monitorTick (n k obs : Nat) (st : UploadState) : UploadState × Bool :=
  let elapsed := 10 * k
  let st1 := { st with processingProgress := min (jsRound (elapsed * 100) 60) 95 }
  if obs > n ∨ elapsed ≥ 60 + 10 then
    ({ st1 with
       processingProgress := 100
       processingMessage := processingCompleteMessage }, true)
  else
    (st1, false)

/-- The monitoring loop from tick `k` on, where `counts j` is the photo
count `fetchPhotos` observes on tick `j`. Returns the per-tick state trace,
the final state, and the index of the terminating tick. The fuel argument
is an artifact of the embedding; the theorems show the loop always
terminates within the fuel used below. -/
def monitorRun (n : Nat) (counts : Nat → Nat) :
    Nat → Nat → UploadState → List UploadState × UploadState × Nat
  | 0, k, st => ([], st, k)
  | fuel + 1, k, st =>
    let res := monitorTick n k (counts k) st
    if res.2 then ([res.1], res.1, k)
    else
      let rec0 := monitorRun n counts fuel (k + 1) res.1
      (res.1 :: rec0.1, rec0.2.1, rec0.2.2)

/-- The `startImageProcessingMonitor` method started with `n` photos
visible before polling: set the processing fields, then poll every 10 s.
Seven ticks of fuel suffice because the 70-second budget check fires on
tick 7 at the latest. -/
def startImageProcessingMonitor (n : Nat) (counts : Nat → Nat) (st : UploadState) :
    List UploadState × UploadState × Nat :=
  monitorRun n counts 7 1
    { st with
      processingImage := true
      processingProgress := 0
      processingMessage := processingStartMessage }

/-- The modal fields of the Alpine component. -/
structure ModalState where
  showModal : Bool
  selectedPhoto : Option Photo
  modalLoading : Bool
deriving DecidableEq

/-- The synchronous part of `closePhotoModal`: hide the modal at once. -/
def closePhotoModalImmediate (st : ModalState) : ModalState :=
  { st with showModal := false }

/-- The deferred part of `closePhotoModal`, run 300 ms later: clear the
selected photo and the modal loading flag. -/
def closePhotoModalDelayed (st : ModalState) : ModalState :=
  { st with selectedPhoto := none, modalLoading := false }

/-- One full `closePhotoModal` call after its transition delay has elapsed. -/
def closePhotoModal (st : ModalState) : ModalState :=
  closePhotoModalDelayed (closePhotoModalImmediate st)

/-- A concrete token-payload decoder that always fails, for instantiating
theorems on concrete inputs. -/
def decodeNone : JwtDecoder := fun _ => none

/-- The safety invariant of the session store: an authenticated status
carries a non-empty token, and any persisted session carries a non-empty
token and username. -/
def Inv (s : SysState) : Prop :=
  (s.auth.isAuthenticated = true → s.auth.token ≠ "")
  ∧ (∀ a, s.storage = some (StoredVal.session a) → a.token ≠ "" ∧ a.username ≠ "")

/-- A concrete persisted session whose expiry lies before the sample
restore time 1000. -/
def stalePersisted : AuthState :=
  { isAuthenticated := true, username := "Alice", token := "tok-1"
  , tokenExpiry := some 500, loading := false }

/-- A concrete persisted session whose expiry lies after the sample
restore time 1000. -/
def freshPersisted : AuthState :=
  { isAuthenticated := true, username := "Alice", token := "tok-1"
  , tokenExpiry := some 5000000, loading := false }

/-- A concrete photo, as would be constructed from a listing response. -/
def samplePhoto : Photo :=
  { id := some "p1", thumbnailUrl := some "thumb-1", url := some "full-1"
  , metadata := { format := none, mode := none, width := none, height := none } }

/-- A gallery state that already holds one photo. -/
def galleryWithOne : GalleryState :=
  { photos := [samplePhoto], loading := false, error := none }

/-- An empty gallery state. -/
def emptyGallery : GalleryState :=
  { photos := [], loading := true, error := none }

/-- A listing item with every optional metadata sub-field absent. -/
def bareItem : ListItem :=
  { ThumbnailURL := some { S := some "t" }
  , OriginalImageURL := some { S := some "u" }
  , ImageMetadataPK := some { S := some "k" }
  , Metadata := none }

/-- The idle upload state of a freshly initialised component. -/
def sampleUploadIdle : UploadState :=
  { fileToUpload := none, uploading := false, uploadProgress := 0
  , uploadError := none, uploadSuccess := false, processingImage := false
  , processingProgress := 0, processingMessage := "" }

/-- A concrete selected file. -/
def sampleFile : FileObj :=
  { name := "cat.png", mime := "image/png" }

theorem truthyS_some_iff {u : String} : truthyS (some u) = true ↔ u ≠ "" := by
  simp [truthyS]

theorem truthyS_getD_ne {o : Option String} (h : truthyS o = true) (d : String) :
    o.getD d ≠ "" := by
  cases o with
  | none => simp [truthyS] at h
  | some u => simpa [truthyS] using h

theorem jsOrS_truthy_right (a : Option String) {b : Option String}
    (hb : truthyS b = true) : truthyS (jsOrS a b) = true := by
  unfold jsOrS
  by_cases ha : truthyS a = true
  · rw [if_pos ha]; exact ha
  · rw [if_neg ha]; exact hb

theorem extractUsername_ne_empty (decode : JwtDecoder) (td : TokenData) :
    extractUsername decode td ≠ "" := by
  by_cases h : truthyS td.username = true
  · have heq : extractUsername decode td = td.username.getD "User" := by
      unfold extractUsername
      rw [if_pos h]
    rw [heq]
    exact truthyS_getD_ne h "User"
  · cases htd : td.id_token with
    | none => simp [extractUsername, h, htd]
    | some idt =>
      by_cases hlen : ((idt.splitOn ".").length == 3) = true
      · cases hdec : decode ((idt.splitOn ".")[1]?.getD "") with
        | none => simp [extractUsername, h, htd, hlen, hdec]
        | some triple =>
          obtain ⟨n, e, u⟩ := triple
          have hchain : truthyS (jsOrS n (jsOrS e (jsOrS u (some "User")))) = true := by
            apply jsOrS_truthy_right
            apply jsOrS_truthy_right
            apply jsOrS_truthy_right
            simp [truthyS]
          have heq : extractUsername decode td
              = (jsOrS n (jsOrS e (jsOrS u (some "User")))).getD "User" := by
            simp [extractUsername, h, htd, hlen, hdec]
          rw [heq]
          exact truthyS_getD_ne hchain "User"
      · simp [extractUsername, h, htd, hlen]

theorem extractUsername_of_truthy (decode : JwtDecoder) (td : TokenData)
    (h : truthyS td.username = true) :
    extractUsername decode td = td.username.getD "User" := by
  unfold extractUsername
  rw [if_pos h]

/-- C9: calling `closePhotoModal` twice in succession is safe, and once the
transition delays have elapsed the modal state is identical to a single
call: hidden, no selected photo, no modal loading. -/
theorem closePhotoModal_idempotent (st : ModalState) :
    closePhotoModalDelayed (closePhotoModalDelayed
      (closePhotoModalImmediate (closePhotoModalImmediate st)))
      = closePhotoModal st
    ∧ closePhotoModal st
      = { showModal := false, selectedPhoto := none, modalLoading := false } :=
  ⟨rfl, rfl⟩

/-- C7: with no file selected, `uploadFile` sets exactly the validation
message, attempts no network transfer, and changes no other field. -/
theorem uploadFile_requires_file (st : UploadState) (out : UploadOutcome)
    (h : st.fileToUpload = none) :
    uploadFile st out =
      ({ st with uploadError := some "Please select a file to upload." }, false) := by
  unfold uploadFile
  rw [h]

/-- Witness for `uploadFile_requires_file` at the idle component state. -/
theorem uploadFile_requires_file_witness :
    uploadFile sampleUploadIdle (UploadOutcome.status 200 "OK") =
      ({ sampleUploadIdle with uploadError := some "Please select a file to upload." }, false) :=
  uploadFile_requires_file sampleUploadIdle (UploadOutcome.status 200 "OK") rfl

/-- C6: after `handleFileSelect f`, a transfer failing with a non-2xx
status leaves the selected file in place, records an error message carrying
that status, and resets `uploading`; a successful 2xx transfer clears the
selected file. -/
theorem upload_retry_roundtrip (st : UploadState) (f : FileObj)
    (code : Nat) (txt : String) (okCode : Nat) (okTxt : String)
    (hfail : code < 200 ∨ 300 ≤ code) (hok : 200 ≤ okCode ∧ okCode < 300) :
    ((uploadFile (handleFileSelect st (some f)) (UploadOutcome.status code txt)).1.fileToUpload
        = some f)
    ∧ ((uploadFile (handleFileSelect st (some f)) (UploadOutcome.status code txt)).1.uploadError
        = some ("Upload failed: Upload failed with status: " ++ toString code ++ " - " ++ txt))
    ∧ ((uploadFile (handleFileSelect st (some f)) (UploadOutcome.status code txt)).1.uploading
        = false)
    ∧ ((uploadFile (handleFileSelect st (some f)) (UploadOutcome.status okCode okTxt)).1.fileToUpload
        = none) := by
  have hnot : ¬(200 ≤ code ∧ code < 300) := by omega
  refine ⟨?_, ?_, ?_, ?_⟩ <;>
    simp [uploadFile, handleFileSelect, hnot, hok]

/-- Witness for `upload_retry_roundtrip`: an HTTP 500 failure followed by
an HTTP 200 success. -/
theorem upload_retry_roundtrip_witness :
    ((uploadFile (handleFileSelect sampleUploadIdle (some sampleFile))
        (UploadOutcome.status 500 "Internal Server Error")).1.fileToUpload = some sampleFile)
    ∧ ((uploadFile (handleFileSelect sampleUploadIdle (some sampleFile))
        (UploadOutcome.status 500 "Internal Server Error")).1.uploadError
        = some ("Upload failed: Upload failed with status: " ++ toString 500
            ++ " - " ++ "Internal Server Error"))
    ∧ ((uploadFile (handleFileSelect sampleUploadIdle (some sampleFile))
        (UploadOutcome.status 500 "Internal Server Error")).1.uploading = false)
    ∧ ((uploadFile (handleFileSelect sampleUploadIdle (some sampleFile))
        (UploadOutcome.status 200 "OK")).1.fileToUpload = none) :=
  upload_retry_roundtrip sampleUploadIdle sampleFile 500 "Internal Server Error" 200 "OK"
    (by omega) (by omega)

/-- C8: a listing response whose `Items` is an array always parses without
error, and each optional metadata sub-field that is absent in an item is
simply absent in the constructed photo. -/
theorem listing_optional_fields (st : GalleryState) (items : List ListItem) :
    ((fetchPhotos st (FetchOutcome.ok (some { Items := some items }))).error = none)
    ∧ ((fetchPhotos st (FetchOutcome.ok (some { Items := some items }))).photos
        = items.map parsePhotoItem)
    ∧ (∀ item ∈ items,
        ((item.Metadata.bind (fun w => w.M)).bind (fun m => m.Format) = none →
          (parsePhotoItem item).metadata.format = none)
        ∧ ((item.Metadata.bind (fun w => w.M)).bind (fun m => m.Mode) = none →
          (parsePhotoItem item).metadata.mode = none)
        ∧ ((item.Metadata.bind (fun w => w.M)).bind (fun m => m.Size) = none →
          (parsePhotoItem item).metadata.width = none
          ∧ (parsePhotoItem item).metadata.height = none)) := by
  refine ⟨rfl, rfl, ?_⟩
  intro item _
  cases hM : item.Metadata.bind (fun w => w.M) with
  | none =>
    refine ⟨?_, ?_, ?_⟩ <;> intro _ <;> simp [parsePhotoItem, hM]
  | some mf =>
    refine ⟨?_, ?_, ?_⟩ <;> intro habs <;> simp at habs <;>
      simp [parsePhotoItem, hM, habs]

/-- Witness for `listing_optional_fields` at a one-item listing whose
metadata is entirely absent. -/
theorem listing_optional_fields_witness :
    ((fetchPhotos emptyGallery (FetchOutcome.ok (some { Items := some [bareItem] }))).error = none)
    ∧ ((parsePhotoItem bareItem).metadata.format = none)
    ∧ ((parsePhotoItem bareItem).metadata.width = none) := by
  have h := listing_optional_fields emptyGallery [bareItem]
  have hmem : bareItem ∈ [bareItem] := List.mem_singleton_self bareItem
  exact ⟨h.1, (h.2.2 bareItem hmem).1 rfl, ((h.2.2 bareItem hmem).2.2 rfl).1⟩

/-- C4 counterexample: a fetch that fails with a non-ok response leaves the
previously fetched photos in place, so the claim that every failing fetch
leaves the photo set empty is false. -/
theorem fetch_failure_keeps_photos_cex :
    ((fetchPhotos galleryWithOne FetchOutcome.httpError).photos.isEmpty = false)
    ∧ ((fetchPhotos galleryWithOne FetchOutcome.httpError).error.isSome = true)
    ∧ ((fetchPhotos galleryWithOne FetchOutcome.httpError).loading = false) :=
  ⟨rfl, rfl, rfl⟩

/-- C4 amended: every failing execution of `fetchPhotos` sets a non-null
error and ends with `loading = false`; a shape mismatch additionally
empties the photo set, while a thrown network or parse error leaves the
photo set unchanged; a successful execution replaces the photo set
wholesale and clears the error. -/
theorem fetch_error_handling_amended (st : GalleryState) (out : FetchOutcome) :
    ((fetchPhotos st out).loading = false)
    ∧ (∀ msg, out = FetchOutcome.netError msg →
        (fetchPhotos st out).error ≠ none ∧ (fetchPhotos st out).photos = st.photos)
    ∧ (out = FetchOutcome.httpError →
        (fetchPhotos st out).error ≠ none ∧ (fetchPhotos st out).photos = st.photos)
    ∧ (out = FetchOutcome.ok none →
        (fetchPhotos st out).error ≠ none ∧ (fetchPhotos st out).photos = [])
    ∧ (∀ d, out = FetchOutcome.ok (some d) → d.Items = none →
        (fetchPhotos st out).error ≠ none ∧ (fetchPhotos st out).photos = [])
    ∧ (∀ items d, out = FetchOutcome.ok (some d) → d.Items = some items →
        (fetchPhotos st out).error = none
        ∧ (fetchPhotos st out).photos = items.map parsePhotoItem) := by
  refine ⟨?_, ?_, ?_, ?_, ?_, ?_⟩
  · rcases out with msg | _ | data
    · rfl
    · rfl
    · rcases data with _ | ⟨_ | items⟩ <;> rfl
  · rintro msg rfl
    exact ⟨by simp [fetchPhotos], rfl⟩
  · rintro rfl
    exact ⟨by simp [fetchPhotos], rfl⟩
  · rintro rfl
    exact ⟨by simp [fetchPhotos], rfl⟩
  · rintro d rfl hI
    obtain ⟨io⟩ := d
    have hio : io = none := hI
    subst hio
    exact ⟨by simp [fetchPhotos], rfl⟩
  · rintro items d rfl hI
    obtain ⟨io⟩ := d
    have hio : io = some items := hI
    subst hio
    exact ⟨rfl, rfl⟩

/-- Witness for `fetch_error_handling_amended` at the non-ok response
branch over a gallery that already holds a photo. -/
theorem fetch_error_handling_witness :
    (fetchPhotos galleryWithOne FetchOutcome.httpError).error ≠ none
    ∧ (fetchPhotos galleryWithOne FetchOutcome.httpError).photos = galleryWithOne.photos :=
  (fetch_error_handling_amended galleryWithOne FetchOutcome.httpError).2.2.1 rfl

theorem checkAuth_code (decode : JwtDecoder) (now : Int) (urlCode : Option String)
    (s : SysState) (hc : truthyS urlCode = true) :
    checkAuthFromHash decode now urlCode s =
      (⟨authOfTokenData decode now (tokenDataOfCode (urlCode.getD "")),
        some (StoredVal.session (authOfTokenData decode now (tokenDataOfCode (urlCode.getD ""))))⟩,
       [authOfTokenData decode now (tokenDataOfCode (urlCode.getD "")),
        authOfTokenData decode now (tokenDataOfCode (urlCode.getD ""))]) := by
  unfold checkAuthFromHash checkAuthBody setAuthenticatedUser
  rw [if_pos hc]
  rfl

theorem checkAuth_noCode_missing (decode : JwtDecoder) (now : Int) (urlCode : Option String)
    (s : SysState) (hc : truthyS urlCode = false) (hst : s.storage = none) :
    checkAuthFromHash decode now urlCode s =
      (⟨{ s.auth with loading := false }, none⟩, [{ s.auth with loading := false }]) := by
  unfold checkAuthFromHash checkAuthBody
  rw [if_neg (by simp [hc])]
  simp only [hst]
  rfl

theorem checkAuth_noCode_malformed (decode : JwtDecoder) (now : Int) (urlCode : Option String)
    (s : SysState) (hc : truthyS urlCode = false)
    (hst : s.storage = some StoredVal.malformed) :
    checkAuthFromHash decode now urlCode s = (⟨emptyAuth, none⟩, [emptyAuth, emptyAuth]) := by
  unfold checkAuthFromHash checkAuthBody clearAuthData
  rw [if_neg (by simp [hc])]
  simp only [hst]
  rfl

theorem checkAuth_noCode_valid (decode : JwtDecoder) (now : Int) (urlCode : Option String)
    (s : SysState) (a : AuthState) (hc : truthyS urlCode = false)
    (hst : s.storage = some (StoredVal.session a)) (hv : storedExpiryValid now a = true) :
    checkAuthFromHash decode now urlCode s =
      (⟨authOfTokenData decode now (tokenDataOfStored a),
        some (StoredVal.session (authOfTokenData decode now (tokenDataOfStored a)))⟩,
       [authOfTokenData decode now (tokenDataOfStored a),
        authOfTokenData decode now (tokenDataOfStored a)]) := by
  unfold checkAuthFromHash checkAuthBody setAuthenticatedUser
  rw [if_neg (by simp [hc])]
  simp only [hst]
  rw [if_pos hv]
  rfl

theorem checkAuth_noCode_invalid (decode : JwtDecoder) (now : Int) (urlCode : Option String)
    (s : SysState) (a : AuthState) (hc : truthyS urlCode = false)
    (hst : s.storage = some (StoredVal.session a)) (hv : storedExpiryValid now a = false) :
    checkAuthFromHash decode now urlCode s = (⟨emptyAuth, none⟩, [emptyAuth, emptyAuth]) := by
  unfold checkAuthFromHash checkAuthBody clearAuthData
  rw [if_neg (by simp [hc])]
  simp only [hst]
  rw [if_neg (by simp [hv])]
  rfl

theorem restoredAuth_token (decode : JwtDecoder) (now : Int) (a : AuthState) :
    (authOfTokenData decode now (tokenDataOfStored a)).token = a.token :=
  rfl

theorem restoredAuth_username (decode : JwtDecoder) (now : Int) (a : AuthState)
    (hname : a.username ≠ "") :
    (authOfTokenData decode now (tokenDataOfStored a)).username = a.username := by
  have ht : truthyS (tokenDataOfStored a).username = true :=
    truthyS_some_iff.mpr hname
  have := extractUsername_of_truthy decode (tokenDataOfStored a) ht
  simpa [authOfTokenData, tokenDataOfStored] using this

/-- C1: restoring a persisted session whose expiry parses strictly into the
future yields an authenticated status with the persisted username and
token, while an absent or non-future expiry yields the fully cleared
status and removes the persisted copy. The non-empty username hypothesis
is satisfied by every session the program itself persists (see
`extractUsername_ne_empty`). -/
theorem session_restore_correct (decode : JwtDecoder) (now : Int) (auth0 a : AuthState) :
    (∀ e : Int, a.tokenExpiry = some e → now < e → a.username ≠ "" →
      ((checkAuthFromHash decode now none ⟨auth0, some (StoredVal.session a)⟩).1.auth.isAuthenticated = true
      ∧ (checkAuthFromHash decode now none ⟨auth0, some (StoredVal.session a)⟩).1.auth.username = a.username
      ∧ (checkAuthFromHash decode now none ⟨auth0, some (StoredVal.session a)⟩).1.auth.token = a.token))
    ∧ ((a.tokenExpiry = none ∨ ∃ e : Int, a.tokenExpiry = some e ∧ e ≤ now) →
      ((checkAuthFromHash decode now none ⟨auth0, some (StoredVal.session a)⟩).1.auth = emptyAuth
      ∧ (checkAuthFromHash decode now none ⟨auth0, some (StoredVal.session a)⟩).1.storage = none)) := by
  constructor
  · intro e he hfut hname
    have hv : storedExpiryValid now a = true := by
      unfold storedExpiryValid
      rw [he]
      exact decide_eq_true hfut
    rw [checkAuth_noCode_valid decode now none _ a rfl rfl hv]
    exact ⟨rfl, restoredAuth_username decode now a hname, rfl⟩
  · intro hexp
    have hv : storedExpiryValid now a = false := by
      rcases hexp with hnone | ⟨e, he, hle⟩
      · unfold storedExpiryValid
        rw [hnone]
      · unfold storedExpiryValid
        rw [he]
        simp
        omega
    rw [checkAuth_noCode_invalid decode now none _ a rfl rfl hv]
    exact ⟨rfl, rfl⟩

/-- Witness for `session_restore_correct`: a fresh and a stale persisted
session checked at time 1000. -/
theorem session_restore_correct_witness :
    ((checkAuthFromHash decodeNone 1000 none
        ⟨emptyAuth, some (StoredVal.session freshPersisted)⟩).1.auth.isAuthenticated = true
    ∧ (checkAuthFromHash decodeNone 1000 none
        ⟨emptyAuth, some (StoredVal.session freshPersisted)⟩).1.auth.username
        = freshPersisted.username
    ∧ (checkAuthFromHash decodeNone 1000 none
        ⟨emptyAuth, some (StoredVal.session freshPersisted)⟩).1.auth.token
        = freshPersisted.token)
    ∧ ((checkAuthFromHash decodeNone 1000 none
        ⟨emptyAuth, some (StoredVal.session stalePersisted)⟩).1.auth = emptyAuth
    ∧ (checkAuthFromHash decodeNone 1000 none
        ⟨emptyAuth, some (StoredVal.session stalePersisted)⟩).1.storage = none) := by
  constructor
  · exact (session_restore_correct decodeNone 1000 emptyAuth freshPersisted).1
      5000000 rfl (by decide) (by decide)
  · exact (session_restore_correct decodeNone 1000 emptyAuth stalePersisted).2
      (Or.inr ⟨500, rfl, by decide⟩)

/-- C10: restoring an unexpired persisted session does not preserve the
persisted expiry: the stored object carries no `expires_in`, so
`setAuthenticatedUser` recomputes the expiry as the restore time plus the
default 3600 seconds. -/
theorem restore_refreshes_expiry (decode : JwtDecoder) (now : Int) (auth0 a : AuthState)
    (e : Int) (he : a.tokenExpiry = some e) (hfut : now < e) :
    ((checkAuthFromHash decode now none ⟨auth0, some (StoredVal.session a)⟩).1.auth.tokenExpiry
      = some (now + 3600 * 1000))
    ∧ (tokenDataOfStored a).expires_in = none := by
  have hv : storedExpiryValid now a = true := by
    unfold storedExpiryValid
    rw [he]
    exact decide_eq_true hfut
  rw [checkAuth_noCode_valid decode now none _ a rfl rfl hv]
  exact ⟨rfl, rfl⟩

/-- Witness for `restore_refreshes_expiry` at restore time 1000. -/
theorem restore_refreshes_expiry_witness :
    ((checkAuthFromHash decodeNone 1000 none
        ⟨emptyAuth, some (StoredVal.session freshPersisted)⟩).1.auth.tokenExpiry
      = some (1000 + 3600 * 1000))
    ∧ (tokenDataOfStored freshPersisted).expires_in = none :=
  restore_refreshes_expiry decodeNone 1000 emptyAuth freshPersisted 5000000 rfl (by decide)

/-- C5 counterexample: a concrete startup check restoring a valid persisted
session emits notifications, but none of them carries `loading = true`, so
the claim that observers see a `loading = true` emission before the
session mutation is false. -/
theorem startup_check_emissions_cex :
    ((checkAuthFromHash decodeNone 1000 none
        ⟨emptyAuth, some (StoredVal.session freshPersisted)⟩).2.any
      (fun x => x.loading)) = false := by
  rfl

/-- C5 amended: the startup check sets `loading := true` at the start
(first conjunct, by definition) and `loading := false` at the end, and a
change notification is always emitted at the end, after the session
mutation; but every emitted notification carries `loading = false` — no
notification is emitted at the `loading = true` point. -/
theorem startup_check_emissions (decode : JwtDecoder) (now : Int)
    (urlCode : Option String) (s : SysState) :
    (checkAuthFromHash decode now urlCode s
      = checkAuthBody decode now urlCode ⟨{ s.auth with loading := true }, s.storage⟩)
    ∧ ((checkAuthFromHash decode now urlCode s).1.auth.loading = false)
    ∧ ((checkAuthFromHash decode now urlCode s).2.isEmpty = false)
    ∧ ((checkAuthFromHash decode now urlCode s).2.getLast?
        = some (checkAuthFromHash decode now urlCode s).1.auth)
    ∧ ((checkAuthFromHash decode now urlCode s).2.all (fun x => !x.loading) = true) := by
  refine ⟨rfl, ?_⟩
  by_cases hc : truthyS urlCode = true
  · rw [checkAuth_code decode now urlCode s hc]
    exact ⟨rfl, rfl, rfl, rfl⟩
  · have hcf : truthyS urlCode = false := by
      exact Bool.not_eq_true _ ▸ Bool.of_not_eq_true hc
    rcases hst : s.storage with _ | sv
    · rw [checkAuth_noCode_missing decode now urlCode s hcf hst]
      exact ⟨rfl, rfl, rfl, rfl⟩
    · cases sv with
      | malformed =>
        rw [checkAuth_noCode_malformed decode now urlCode s hcf hst]
        exact ⟨rfl, rfl, rfl, rfl⟩
      | session a =>
        by_cases hv : storedExpiryValid now a = true
        · rw [checkAuth_noCode_valid decode now urlCode s a hcf hst hv]
          exact ⟨rfl, rfl, rfl, rfl⟩
        · have hvf : storedExpiryValid now a = false := by
            exact Bool.not_eq_true _ ▸ Bool.of_not_eq_true hv
          rw [checkAuth_noCode_invalid decode now urlCode s a hcf hst hvf]
          exact ⟨rfl, rfl, rfl, rfl⟩

theorem idPrefix_ne (c : String) : ("id-" ++ c) ≠ "" := by
  intro h
  have hlen := congrArg String.length h
  simp [String.length_append] at hlen
  exact absurd hlen.1 (by decide)

theorem exchangeAuth_token (decode : JwtDecoder) (now : Int) (c : String) :
    (authOfTokenData decode now (tokenDataOfCode c)).token = "id-" ++ c := by
  have h1 : truthyS (some ("id-" ++ c)) = true := truthyS_some_iff.mpr (idPrefix_ne c)
  simp [authOfTokenData, tokenDataOfCode, jsOrS, h1]

theorem inv_empty : Inv ⟨emptyAuth, none⟩ := by
  constructor
  · intro h
    simp [emptyAuth] at h
  · intro a h
    simp at h

theorem inv_setAuth (decode : JwtDecoder) (now : Int) (td : TokenData)
    (htok : (authOfTokenData decode now td).token ≠ "") :
    Inv (setAuthenticatedUser decode now td).1 := by
  refine ⟨fun _ => htok, ?_⟩
  intro a ha
  have hpair : some (StoredVal.session (authOfTokenData decode now td))
      = some (StoredVal.session a) := ha
  injection hpair with h1
  injection h1 with h2
  rw [← h2]
  exact ⟨htok, extractUsername_ne_empty decode td⟩

theorem inv_step (t : Int) (s sN : SysState) (hInv : Inv s) (hstep : Step t s sN) :
    Inv sN := by
  cases hstep with
  | check decode t urlCode s =>
    by_cases hc : truthyS urlCode = true
    · rw [checkAuth_code decode t urlCode s hc]
      exact inv_setAuth decode t (tokenDataOfCode (urlCode.getD ""))
        (by rw [exchangeAuth_token]; exact idPrefix_ne _)
    · have hcf : truthyS urlCode = false := Bool.not_eq_true _ ▸ Bool.of_not_eq_true hc
      rcases hst : s.storage with _ | sv
      · rw [checkAuth_noCode_missing decode t urlCode s hcf hst]
        refine ⟨fun hA => hInv.1 hA, ?_⟩
        intro a ha
        simp at ha
      · cases sv with
        | malformed =>
          rw [checkAuth_noCode_malformed decode t urlCode s hcf hst]
          exact inv_empty
        | session a =>
          by_cases hv : storedExpiryValid t a = true
          · rw [checkAuth_noCode_valid decode t urlCode s a hcf hst hv]
            apply inv_setAuth
            rw [restoredAuth_token]
            exact (hInv.2 a hst).1
          · have hvf : storedExpiryValid t a = false :=
              Bool.not_eq_true _ ▸ Bool.of_not_eq_true hv
            rw [checkAuth_noCode_invalid decode t urlCode s a hcf hst hvf]
            exact inv_empty
  | logout =>
    exact inv_empty
  | tick =>
    cases hexp : s.auth.tokenExpiry with
    | none =>
      simp only [expiryTick, hexp]
      exact hInv
    | some e =>
      by_cases hle : e ≤ t
      · simp only [expiryTick, hexp, if_pos hle]
        exact inv_empty
      · simp only [expiryTick, hexp, if_neg hle]
        exact hInv

theorem reach_inv (s : SysState) (h : Reachable s) : Inv s := by
  induction h with
  | init => exact inv_empty
  | step t s1 s2 _ hstep ih => exact inv_step t s1 s2 ih hstep

theorem stored_username_ne (s : SysState) (h : Reachable s) (a : AuthState)
    (hst : s.storage = some (StoredVal.session a)) : a.username ≠ "" :=
  ((reach_inv s h).2 a hst).2

theorem step_expiry (t : Int) (s sN : SysState) (hstep : Step t s sN)
    (hA : sN.auth.isAuthenticated = true) :
    sN.auth.tokenExpiry = s.auth.tokenExpiry
    ∨ ∃ e : Int, sN.auth.tokenExpiry = some e ∧ t < e := by
  cases hstep with
  | check decode t urlCode s =>
    by_cases hc : truthyS urlCode = true
    · right
      rw [checkAuth_code decode t urlCode s hc]
      exact ⟨t + 3600 * 1000, rfl, by omega⟩
    · have hcf : truthyS urlCode = false := Bool.not_eq_true _ ▸ Bool.of_not_eq_true hc
      rcases hst : s.storage with _ | sv
      · left
        rw [checkAuth_noCode_missing decode t urlCode s hcf hst]
      · cases sv with
        | malformed =>
          rw [checkAuth_noCode_malformed decode t urlCode s hcf hst] at hA
          simp [emptyAuth] at hA
        | session a =>
          by_cases hv : storedExpiryValid t a = true
          · right
            rw [checkAuth_noCode_valid decode t urlCode s a hcf hst hv]
            exact ⟨t + 3600 * 1000, rfl, by omega⟩
          · have hvf : storedExpiryValid t a = false :=
              Bool.not_eq_true _ ▸ Bool.of_not_eq_true hv
            rw [checkAuth_noCode_invalid decode t urlCode s a hcf hst hvf] at hA
            simp [emptyAuth] at hA
  | logout =>
    simp [logoutUser, clearAuthData, emptyAuth] at hA
  | tick =>
    cases hexp : s.auth.tokenExpiry with
    | none =>
      simp only [expiryTick, hexp]
      left
      trivial
    | some e =>
      by_cases hle : e ≤ t
      · simp only [expiryTick, hexp, if_pos hle] at hA
        simp [clearAuthData, emptyAuth] at hA
      · simp only [expiryTick, hexp, if_neg hle]
        left
        trivial

/-- C2: in every reachable auth state, being authenticated implies a
non-empty token; and any step that changes the stored expiry while leaving
the status authenticated installs an expiry strictly in the future of that
step's own time (the expiry was strictly in the future at the moment it was
set). -/
theorem auth_invariant (t : Int) (s sNext : SysState)
    (hreach : Reachable s) (hstep : Step t s sNext) :
    (s.auth.isAuthenticated = true → s.auth.token ≠ "")
    ∧ (sNext.auth.isAuthenticated = true →
        sNext.auth.token ≠ ""
        ∧ (sNext.auth.tokenExpiry = s.auth.tokenExpiry
          ∨ ∃ e : Int, sNext.auth.tokenExpiry = some e ∧ t < e)) := by
  have hInvS := reach_inv s hreach
  have hInvN := inv_step t s sNext hInvS hstep
  exact ⟨hInvS.1, fun hA => ⟨hInvN.1 hA, step_expiry t s sNext hstep hA⟩⟩

/-- Witness for `auth_invariant`: the code-exchange step from the initial
state at time 0 yields a non-empty token and a strictly future expiry. -/
theorem auth_invariant_witness :
    (checkAuthFromHash decodeNone 0 (some "abcdefgh")
        ⟨emptyAuth, none⟩).1.auth.token ≠ ""
    ∧ ((checkAuthFromHash decodeNone 0 (some "abcdefgh")
          ⟨emptyAuth, none⟩).1.auth.tokenExpiry
        = (⟨emptyAuth, none⟩ : SysState).auth.tokenExpiry
      ∨ ∃ e : Int, (checkAuthFromHash decodeNone 0 (some "abcdefgh")
          ⟨emptyAuth, none⟩).1.auth.tokenExpiry = some e ∧ 0 < e) :=
  (auth_invariant 0 ⟨emptyAuth, none⟩
    (checkAuthFromHash decodeNone 0 (some "abcdefgh") ⟨emptyAuth, none⟩).1
    Reachable.init
    (Step.check decodeNone 0 (some "abcdefgh") ⟨emptyAuth, none⟩)).2 (by rfl)

theorem monitorTick_done (n k obs : Nat) (st : UploadState)
    (h : obs > n ∨ 10 * k ≥ 60 + 10) :
    monitorTick n k obs st
      = ({ st with
           processingProgress := 100
           processingMessage := processingCompleteMessage }, true) := by
  unfold monitorTick
  rw [if_pos h]

theorem monitorTick_cont (n k obs : Nat) (st : UploadState)
    (h : ¬(obs > n ∨ 10 * k ≥ 60 + 10)) :
    monitorTick n k obs st
      = ({ st with processingProgress := min (jsRound (10 * k * 100) 60) 95 }, false) := by
  unfold monitorTick
  rw [if_neg h]

theorem monitorRun_spec (n : Nat) (counts : Nat → Nat) :
    ∀ (fuel k : Nat) (st : UploadState), 1 ≤ fuel → 8 ≤ k + fuel →
      (k ≤ (monitorRun n counts fuel k st).2.2)
      ∧ ((monitorRun n counts fuel k st).2.2 ≤ k + fuel - 1)
      ∧ (counts (monitorRun n counts fuel k st).2.2 > n
          ∨ 10 * (monitorRun n counts fuel k st).2.2 ≥ 60 + 10)
      ∧ (∀ j, k ≤ j → j < (monitorRun n counts fuel k st).2.2 →
          ¬(counts j > n ∨ 10 * j ≥ 60 + 10))
      ∧ ((monitorRun n counts fuel k st).2.1.processingProgress = 100)
      ∧ ((monitorRun n counts fuel k st).2.1.processingMessage = processingCompleteMessage)
      ∧ ((monitorRun n counts fuel k st).1.getLast? = some (monitorRun n counts fuel k st).2.1)
      ∧ ((monitorRun n counts fuel k st).1.length = (monitorRun n counts fuel k st).2.2 + 1 - k)
      ∧ (∀ x ∈ (monitorRun n counts fuel k st).1.dropLast, x.processingProgress < 100) := by
  intro fuel
  induction fuel with
  | zero =>
    intro k st h1 _
    exact absurd h1 (by decide)
  | succ fuel ih =>
    intro k st _ hbound
    by_cases hcond : (counts k > n ∨ 10 * k ≥ 60 + 10)
    · have hrun : monitorRun n counts (fuel + 1) k st
          = ([{ st with
                processingProgress := 100
                processingMessage := processingCompleteMessage }],
             { st with
               processingProgress := 100
               processingMessage := processingCompleteMessage }, k) := by
        unfold monitorRun
        rw [monitorTick_done n k (counts k) st hcond]
        rfl
      have e1 : (monitorRun n counts (fuel + 1) k st).1
          = [{ st with
               processingProgress := 100
               processingMessage := processingCompleteMessage }] := by
        simp [hrun]
      have e21 : (monitorRun n counts (fuel + 1) k st).2.1
          = { st with
              processingProgress := 100
              processingMessage := processingCompleteMessage } := by
        simp [hrun]
      have e22 : (monitorRun n counts (fuel + 1) k st).2.2 = k := by
        simp [hrun]
      refine ⟨?_, ?_, ?_, ?_, ?_, ?_, ?_, ?_, ?_⟩
      · rw [e22]
      · rw [e22]
        omega
      · rw [e22]
        exact hcond
      · intro j hkj hjlt
        rw [e22] at hjlt
        omega
      · rw [e21]
      · rw [e21]
      · rw [e1, e21]
        simp
      · rw [e1, e22, List.length_singleton]
        omega
      · rw [e1]
        intro x hx
        simp at hx
    · have hfuel1 : 1 ≤ fuel := by
        by_contra hf
        have hf0 : fuel = 0 := by omega
        subst hf0
        exact hcond (Or.inr (by omega))
      have hrun : monitorRun n counts (fuel + 1) k st
          = ({ st with processingProgress := min (jsRound (10 * k * 100) 60) 95 }
              :: (monitorRun n counts fuel (k + 1)
                  { st with processingProgress := min (jsRound (10 * k * 100) 60) 95 }).1,
             (monitorRun n counts fuel (k + 1)
                  { st with processingProgress := min (jsRound (10 * k * 100) 60) 95 }).2.1,
             (monitorRun n counts fuel (k + 1)
                  { st with processingProgress := min (jsRound (10 * k * 100) 60) 95 }).2.2) := by
        conv_lhs => rw [monitorRun]
        rw [monitorTick_cont n k (counts k) st hcond]
        rfl
      have e1 : (monitorRun n counts (fuel + 1) k st).1
          = { st with processingProgress := min (jsRound (10 * k * 100) 60) 95 }
              :: (monitorRun n counts fuel (k + 1)
                  { st with processingProgress := min (jsRound (10 * k * 100) 60) 95 }).1 := by
        simp [hrun]
      have e21 : (monitorRun n counts (fuel + 1) k st).2.1
          = (monitorRun n counts fuel (k + 1)
              { st with processingProgress := min (jsRound (10 * k * 100) 60) 95 }).2.1 := by
        simp [hrun]
      have e22 : (monitorRun n counts (fuel + 1) k st).2.2
          = (monitorRun n counts fuel (k + 1)
              { st with processingProgress := min (jsRound (10 * k * 100) 60) 95 }).2.2 := by
        simp [hrun]
      obtain ⟨ih1, ih2, ih3, ih4, ih5, ih6, ih7, ih8, ih9⟩ :=
        ih (k + 1)
          { st with processingProgress := min (jsRound (10 * k * 100) 60) 95 }
          hfuel1 (by omega)
      refine ⟨?_, ?_, ?_, ?_, ?_, ?_, ?_, ?_, ?_⟩
      · rw [e22]
        omega
      · rw [e22]
        omega
      · rw [e22]
        exact ih3
      · intro j hkj hjlt
        rw [e22] at hjlt
        by_cases hj : j = k
        · subst hj
          exact hcond
        · exact ih4 j (by omega) hjlt
      · rw [e21]
        exact ih5
      · rw [e21]
        exact ih6
      · rw [e1, e21]
        cases hrl : (monitorRun n counts fuel (k + 1)
            { st with processingProgress := min (jsRound (10 * k * 100) 60) 95 }).1 with
        | nil =>
          rw [hrl] at ih8
          simp at ih8
          omega
        | cons b tl =>
          rw [hrl] at ih7
          rw [List.getLast?_cons_cons]
          exact ih7
      · rw [e1, e22, List.length_cons, ih8]
        omega
      · rw [e1]
        cases hrl : (monitorRun n counts fuel (k + 1)
            { st with processingProgress := min (jsRound (10 * k * 100) 60) 95 }).1 with
        | nil =>
          intro x hx
          simp at hx
        | cons b tl =>
          rw [hrl] at ih9
          intro x hx
          have hx2 : x ∈ { st with processingProgress := min (jsRound (10 * k * 100) 60) 95 }
              :: (b :: tl).dropLast := hx
          rcases List.mem_cons.mp hx2 with hxa | hxb
          · subst hxa
            have h95 : min (jsRound (10 * k * 100) 60) 95 ≤ 95 := min_le_right _ _
            have hpp : ({ st with
                processingProgress := min (jsRound (10 * k * 100) 60) 95 }
                : UploadState).processingProgress
                = min (jsRound (10 * k * 100) 60) 95 := rfl
            omega
          · exact ih9 x hxb

/-- C3: the post-upload monitoring loop started with `n` photos terminates
at exactly the first tick on which the observed count exceeds `n` or the
elapsed time reaches the budget (at the latest tick 7); every state shown
before the terminating tick has progress strictly below 100, and the final
state has progress 100 and the completion message. -/
theorem monitor_progress_termination (n : Nat) (counts : Nat → Nat) (st : UploadState) :
    (1 ≤ (startImageProcessingMonitor n counts st).2.2)
    ∧ ((startImageProcessingMonitor n counts st).2.2 ≤ 7)
    ∧ (counts (startImageProcessingMonitor n counts st).2.2 > n
        ∨ 10 * (startImageProcessingMonitor n counts st).2.2 ≥ 60 + 10)
    ∧ (∀ j, 1 ≤ j → j < (startImageProcessingMonitor n counts st).2.2 →
        ¬(counts j > n ∨ 10 * j ≥ 60 + 10))
    ∧ ((startImageProcessingMonitor n counts st).2.1.processingProgress = 100)
    ∧ ((startImageProcessingMonitor n counts st).2.1.processingMessage
        = processingCompleteMessage)
    ∧ ((startImageProcessingMonitor n counts st).1.getLast?
        = some (startImageProcessingMonitor n counts st).2.1)
    ∧ (∀ x ∈ (startImageProcessingMonitor n counts st).1.dropLast,
        x.processingProgress < 100) := by
  obtain ⟨h1, h2, h3, h4, h5, h6, h7, h8, h9⟩ :=
    monitorRun_spec n counts 7 1
      { st with
        processingImage := true
        processingProgress := 0
        processingMessage := processingStartMessage }
      (by decide) (by decide)
  have hdef : (startImageProcessingMonitor n counts st).2.2
      = (monitorRun n counts 7 1
          { st with
            processingImage := true
            processingProgress := 0
            processingMessage := processingStartMessage }).2.2 := rfl
  refine ⟨h1, ?_, h3, h4, h5, h6, h7, h9⟩
  rw [hdef]
  omega

/-- Witness for `monitor_progress_termination`: a run in which the photo
count never increases, so the loop ends on the time budget with full
progress; tick 3 is strictly before the terminating tick and satisfies
neither terminating condition. -/
theorem monitor_progress_termination_witness :
    ¬((fun _ : Nat => 3) 3 > 3 ∨ 10 * 3 ≥ 60 + 10)
    ∧ ((startImageProcessingMonitor 3 (fun _ : Nat => 3) sampleUploadIdle).2.1.processingProgress
        = 100) := by
  have h := monitor_progress_termination 3 (fun _ : Nat => 3) sampleUploadIdle
  exact ⟨h.2.2.2.1 3 (by decide) (by decide), h.2.2.2.2.1⟩

end PhotoApp
